import Mathlib

set_option autoImplicit false
set_option maxRecDepth 100000

/-!
Verification development for the journalViewer EXT3/EXT4 journal analyzer.
Each definition is a shallow embedding of the corresponding C++ function in
src/: byte buffers become lists of naturals (one per byte), 32-bit machine
arithmetic is modelled with explicit reductions modulo 2^32, and fallible
operations return Option values.
-/

/-- Little-endian 16-bit read of two bytes, as performed by casting a byte
buffer to a uint16 pointer on a little-endian host. -/
def u16le (b0 b1 : Nat) : Nat := b0 + b1 * 256

/-- Little-endian 32-bit read of four bytes, as performed by memcpy into a
uint32 on a little-endian host. -/
def u32le (b0 b1 b2 b3 : Nat) : Nat :=
  b0 + b1 * 256 + b2 * 65536 + b3 * 16777216

/-- Big-endian 32-bit read of four bytes: the result of reading little-endian
and then applying a 32-bit byte swap, as the source does for journal fields. -/
def u32be (b0 b1 b2 b3 : Nat) : Nat :=
  b0 * 16777216 + b1 * 65536 + b2 * 256 + b3

/-- Little-endian 16-bit read at an offset of a byte-list buffer. -/
def u16at (l : List Nat) (off : Nat) : Nat :=
  u16le (l.getD off 0) (l.getD (off + 1) 0)

/-- Little-endian 32-bit read at an offset of a byte-list buffer. -/
def u32at (l : List Nat) (off : Nat) : Nat :=
  u32le (l.getD off 0) (l.getD (off + 1) 0) (l.getD (off + 2) 0) (l.getD (off + 3) 0)

/-- Big-endian 32-bit read at an offset of a byte-list buffer. -/
def u32beAt (l : List Nat) (off : Nat) : Nat :=
  u32be (l.getD off 0) (l.getD (off + 1) 0) (l.getD (off + 2) 0) (l.getD (off + 3) 0)

/-- The four bytes of the big-endian encoding of a 32-bit value. -/
def be32 (n : Nat) : List Nat :=
  [n / 16777216 % 256, n / 65536 % 256, n / 256 % 256, n % 256]

/-- 32-bit byte swap (builtin bswap32 of the source). -/
def bswap32 (n : Nat) : Nat :=
  n % 256 * 16777216 + n / 256 % 256 * 65536 + n / 65536 % 256 * 256 + n / 16777216 % 256

/-- Reinterpretation of a uint32 value as a signed int32, modelling the
static casts of the source. -/
def toInt32 (n : Nat) : Int :=
  if n < 2147483648 then (n : Int) else (n : Int) - 4294967296

/-! ## Image Reader: ImageHandler::readBytes (src/image_handler.cpp)

The backend abstracts the raw-file and EWF read paths: given an absolute
image offset and a size it returns the bytes obtained, or none when the
seek or read fails outright; a short read is a returned list shorter than
the request. -/

/-- Decides whether a byte list has exactly the given length, written as a
tail-recursive simultaneous descent so that concrete evaluation runs in
constant stack space; checkLength_iff identifies it with List.length. -/
def checkLength : List Nat → Nat → Bool
  | [], 0 => true
  | [], _ + 1 => false
  | _ :: _, 0 => false
  | _ :: rest, n + 1 => checkLength rest n

/-- ImageHandler::readBytes. Adds the partition offset, rejects requests
with a negative adjusted offset, a zero size, or a size above 1 MiB, and
fails when the backend delivers fewer bytes than requested. -/
def readBytes (partition_offset : Int) (backend : Int → Nat → Option (List Nat))
    (offset : Int) (size : Nat) : Option (List Nat) :=
  let adjusted_offset := offset + partition_offset
  if adjusted_offset < 0 ∨ size = 0 ∨ size > 1024 * 1024 then none
  else
    match backend adjusted_offset size with
    | some bytes => if checkLength bytes size then some bytes else none
    | none => none

/-! ## JBD/JBD2 header: JournalParser::parseJournalHeader (src/journal_parser.cpp) -/

/-- Journal block header (12 bytes on disk). -/
structure JournalHeader where
  magic : Nat
  block_type : Nat
  sequence : Nat
deriving DecidableEq, Inhabited

/-- The JBD2 magic constant of the source header file (commented there as the
little-endian form of 0xC03B3998). -/
def JBD2_MAGIC : Nat := 0x9839B3C0

/-- The JBD magic constant of the source header file. -/
def JBD_MAGIC : Nat := 0x98393BC0

/-- JournalParser::parseJournalHeader. The magic field is copied raw (a
little-endian read of the first four bytes); block type and sequence are
byte-swapped from big-endian. Succeeds when the raw magic equals either
stored constant. -/
def parseJournalHeader (data : List Nat) : Option JournalHeader :=
  let magic := u32at data 0
  let block_type := u32beAt data 4
  let sequence := u32beAt data 8
  if magic = JBD2_MAGIC ∨ magic = JBD_MAGIC then
    some { magic := magic, block_type := block_type, sequence := sequence }
  else none

/-! ## Descriptor block tags: JournalParser::parseDescriptorBlock -/

/-- One descriptor tag. -/
structure DescriptorEntry where
  fs_block_num : Nat
  flags : Nat
deriving DecidableEq, Inhabited

/-- JournalParser::parseDescriptorBlock. Consumes eight bytes per loop
iteration (the i*8 indexing of the source); reads both fields big-endian,
keeps a tag when 0 < fs_block_num < 0x7FFFFFFF and flags <= 0xFF, and stops
after a tag whose two fields are both zero. A trailing fragment of fewer
than eight bytes is ignored, as in the source where entry_count = size / 8. -/
def parseDescriptorBlock : List Nat → List DescriptorEntry
  | b0 :: b1 :: b2 :: b3 :: b4 :: b5 :: b6 :: b7 :: rest =>
    let fs_block_num := u32be b0 b1 b2 b3
    let flags := u32be b4 b5 b6 b7
    let tail := if fs_block_num = 0 ∧ flags = 0 then [] else parseDescriptorBlock rest
    if 0 < fs_block_num ∧ fs_block_num < 0x7FFFFFFF ∧ flags ≤ 0xFF then
      { fs_block_num := fs_block_num, flags := flags } :: tail
    else tail
  | _ => []

/-- The eight bytes encoding one tag pair big-endian on disk. -/
def encodeTag (t : Nat × Nat) : List Nat := be32 t.1 ++ be32 t.2

/-! ## Checksum and relative timestamps -/

/-- Lowercase hexadecimal digit. -/
def hexDigit (n : Nat) : Char :=
  if n < 10 then Char.ofNat (48 + n) else Char.ofNat (87 + n)

/-- Eight-digit zero-padded lowercase hexadecimal rendering of a 32-bit
value, matching the stringstream formatting of the source. -/
def toHex8 (n : Nat) : String :=
  String.mk ((List.range 8).map fun i => hexDigit (n / 16 ^ (7 - i) % 16))

/-- JournalParser::calculateChecksum: the running 32-bit hash
h := h * 31 + byte over the buffer, rendered as 8 hex digits; empty input
gives the empty string. -/
def calculateChecksum (data : List Nat) : String :=
  if data = [] then ""
  else toHex8 (data.foldl (fun h b => (h * 31 + b) % 4294967296) 0)

/-- JournalParser::generateRelativeTimestamp. A zero sequence yields T+0
unconditionally; otherwise the signed 32-bit difference from the base is
rendered with a plus sign only when non-negative. -/
def generateRelativeTimestamp (sequence_num base_sequence : Nat) : String :=
  if sequence_num = 0 then "T+0"
  else
    let relative_pos := toInt32 sequence_num - toInt32 base_sequence
    if 0 ≤ relative_pos then "T+" ++ toString relative_pos
    else "T" ++ toString relative_pos

/-! ## Journal Locator: ImageHandler::findJournalInSuperblock (src/image_handler.cpp) -/

/-- Result of journal location (the journal_location member of ImageHandler). -/
structure JournalLocation where
  offset : Int
  size : Int
  found : Bool
deriving DecidableEq, Inhabited

/-- ImageHandler::validateJournalMagic: reads 12 bytes and accepts the raw
little-endian u32 values 0x9839B3C0 (the JBD2 constant), 0x98393BC0 (the JBD
constant), or 0xC03B3998 (the reversed-order fallback the source also takes). -/
def validateJournalMagic (partition_offset : Int) (backend : Int → Nat → Option (List Nat))
    (offset : Int) : Bool :=
  match readBytes partition_offset backend offset 12 with
  | none => false
  | some header =>
    u32at header 0 == 0x9839B3C0 || u32at header 0 == 0x98393BC0 || u32at header 0 == 0xC03B3998

/-- block_size = 1024 << log_block_size with log_block_size the u32 at
superblock offset 24, truncated to 32 bits as in the uint32 arithmetic of
the source. -/
def ext_block_size (sblock : List Nat) : Nat :=
  (1024 <<< u32at sblock 24) % 4294967296

/-- group_desc_offset = (first_data_block + 1) * block_size in uint32
arithmetic, then widened to long. -/
def ext_group_desc_offset (sblock : List Nat) : Int :=
  (((u32at sblock 20 + 1) * ext_block_size sblock) % 4294967296 : Nat)

/-- inode_table_offset = inode_table_block * block_size in uint32 arithmetic. -/
def ext_inode_table_offset (sblock gdesc : List Nat) : Int :=
  ((u32at gdesc 8 * ext_block_size sblock) % 4294967296 : Nat)

/-- Inode size from superblock offset 88, defaulting to 128 when zero. -/
def ext_inode_size (sblock : List Nat) : Nat :=
  if 0 < u16at sblock 88 then u16at sblock 88 else 128

/-- Byte address of filesystem inode 8 (the journal inode):
inode_table_offset + (8 - 1) * actual_inode_size. -/
def ext_journal_inode_offset (sblock gdesc : List Nat) : Int :=
  ext_inode_table_offset sblock gdesc + 7 * (ext_inode_size sblock : Int)

/-- First journal block from the journal inode: when the EXTENTS flag
(0x00080000) is set the source requires extent magic 0xF30A and a positive
entry count and then reads the u32 at inode offset 60 (its empirical
workaround); otherwise it reads the direct pointer at offset 40. -/
def ext_journal_block (jinode : List Nat) : Option Nat :=
  if u32at jinode 32 &&& 0x00080000 ≠ 0 then
    if u16at jinode 40 = 0xF30A ∧ 0 < u16at jinode 42 then some (u32at jinode 60)
    else none
  else some (u32at jinode 40)

/-- The fixed fallback offsets searched when validation at the computed
offset fails; the zero sentinel terminates the array walk, so the list stops
at the first zero entry. -/
def searchOffsets (block_size : Nat) : List Int :=
  ([32768, 65536, 131072, 262144, 524288, 1048576,
    ((block_size * 10) % 4294967296 : Nat), ((block_size * 100) % 4294967296 : Nat)] : List Int).takeWhile
    (fun o => o != 0)

/-- ImageHandler::findJournalInSuperblock: reads the superblock at 1024,
checks the EXT magic and journal feature bits, walks the group descriptor
and journal inode, computes the journal offset, validates its magic, and
falls back to the fixed search offsets. Every failure yields the invalid
location. -/
def findJournalInSuperblock (partition_offset : Int)
    (backend : Int → Nat → Option (List Nat)) : JournalLocation :=
  match readBytes partition_offset backend 1024 1024 with
  | none => { offset := 0, size := 0, found := false }
  | some sblock =>
    if u16at sblock 56 ≠ 0xEF53 then { offset := 0, size := 0, found := false }
    else if u32at sblock 92 &&& 0x0004 = 0 ∧ u32at sblock 96 &&& 0x0008 = 0 then
      { offset := 0, size := 0, found := false }
    else
      match readBytes partition_offset backend (ext_group_desc_offset sblock) 32 with
      | none => { offset := 0, size := 0, found := false }
      | some gdesc =>
        match readBytes partition_offset backend (ext_journal_inode_offset sblock gdesc)
            (ext_inode_size sblock) with
        | none => { offset := 0, size := 0, found := false }
        | some jinode =>
          match ext_journal_block jinode with
          | none => { offset := 0, size := 0, found := false }
          | some journal_block =>
            if journal_block = 0 then { offset := 0, size := 0, found := false }
            else
              let journal_offset : Int :=
                ((journal_block * ext_block_size sblock) % 4294967296 : Nat)
              if validateJournalMagic partition_offset backend journal_offset then
                { offset := journal_offset, size := (u32at jinode 4 : Int), found := true }
              else
                match (searchOffsets (ext_block_size sblock)).find?
                    (fun off => validateJournalMagic partition_offset backend off) with
                | some off => { offset := off, size := 0, found := true }
                | none => { offset := 0, size := 0, found := false }

/-! ### Concrete image fixture for the Journal Locator claims:
an EXT superblock advertising log_block_size = 7 (block size 131072, outside
the 1024..65536 range), a journal feature, a group descriptor placing the
inode table at block 1, and a journal inode pointing at block 1 whose target
carries valid JBD magic. -/

/-- Superblock bytes: first_data_block 0 at offset 20, log_block_size 7 at
offset 24, magic 0xEF53 at offset 56, inode_size 128 at offset 88,
feature_compat HAS_JOURNAL at offset 92. -/
def sbC4 : List Nat :=
  List.replicate 20 0 ++ [0, 0, 0, 0] ++ [7, 0, 0, 0] ++ List.replicate 28 0 ++
    [0x53, 0xEF] ++ List.replicate 30 0 ++ [0x80, 0] ++ [0, 0] ++ [4, 0, 0, 0] ++
    [0, 0, 0, 0] ++ List.replicate 924 0

/-- Group descriptor bytes: inode_table_block 1 at offset 8. -/
def gdC4 : List Nat := List.replicate 8 0 ++ [1, 0, 0, 0] ++ List.replicate 20 0

/-- Journal inode bytes: size_lo 4096 at offset 4, flags 0 at offset 32
(direct pointers), first direct block 1 at offset 40. -/
def jiC4 : List Nat :=
  [0, 0, 0, 0] ++ [0, 16, 0, 0] ++ List.replicate 24 0 ++ [0, 0, 0, 0] ++
    [0, 0, 0, 0] ++ [1, 0, 0, 0] ++ List.replicate 84 0

/-- Twelve bytes carrying the on-disk JBD2 magic. -/
def jmagicC4 : List Nat := [0xC0, 0x3B, 0x39, 0x98] ++ List.replicate 8 0

/-- Backend serving the C4 fixture image. -/
def backendC4 (a : Int) (n : Nat) : Option (List Nat) :=
  if a = 1024 ∧ n = 1024 then some sbC4
  else if a = 131072 ∧ n = 32 then some gdC4
  else if a = 131968 ∧ n = 128 then some jiC4
  else if a = 131072 ∧ n = 12 then some jmagicC4
  else none

/-! ## JBD/JBD2 Decoder: the block-scan loop of JournalParser::parseJournal
(src/journal_parser.cpp, lines 70-497), taken after the journal offset and
size have been resolved.

The content classification of journaled data blocks (identifyBlockType and
the inode/directory/string sub-decoders, together with the directory-tree
side effects they perform) is abstracted as a parameter: it receives the
data block bytes, the descriptor tag, and the default-initialized data
record with its checksum already set, and returns the finalized record, the
extra records the directory case may emit, and its updated state. The
framing, addressing, sequence filtering, and the relative-time post-pass -
the subjects of the claims - are embedded in full. -/

/-- The canonical output record (struct JournalTransaction of the source). -/
structure JournalTransaction where
  relative_time : String
  transaction_seq : Nat
  block_type : String
  fs_block_num : Nat
  operation_type : String
  affected_inode : Nat
  file_path : String
  data_size : Nat
  checksum : String
  file_type : String
  file_size : Nat
  inode_number : Nat
  link_count : Nat
  filename : String
  parent_dir_inode : Nat
  change_type : String
  full_path : String
deriving DecidableEq, Inhabited

/-- The record pushed for a descriptor block (case DESCRIPTOR of the scan
switch); data_size is the entry count times sizeof(DescriptorEntry) = 16. -/
def descriptorRecord (sequence : Nat) (num_descriptors : Nat) (checksum : String) :
    JournalTransaction :=
  { relative_time := "T+0", transaction_seq := sequence, block_type := "descriptor",
    fs_block_num := 0, operation_type := "transaction_start", affected_inode := 0,
    file_path := "", data_size := num_descriptors * 16, checksum := checksum,
    file_type := "transaction", file_size := 0, inode_number := 0, link_count := 0,
    filename := "", parent_dir_inode := 0, change_type := "transaction_start",
    full_path := "" }

/-- The record pushed for a commit block (case COMMIT of the scan switch). -/
def commitRecord (sequence : Nat) (checksum : String) : JournalTransaction :=
  { relative_time := "T+0", transaction_seq := sequence, block_type := "commit",
    fs_block_num := 0, operation_type := "transaction_end", affected_inode := 0,
    file_path := "", data_size := 0, checksum := checksum,
    file_type := "transaction", file_size := 0, inode_number := 0, link_count := 0,
    filename := "", parent_dir_inode := 0, change_type := "transaction_end",
    full_path := "" }

/-- The record pushed for a revocation block. -/
def revocationRecord (sequence : Nat) (checksum : String) : JournalTransaction :=
  { relative_time := "T+0", transaction_seq := sequence, block_type := "revocation",
    fs_block_num := 0, operation_type := "block_revocation", affected_inode := 0,
    file_path := "", data_size := 4096 - 12, checksum := checksum,
    file_type := "revocation", file_size := 0, inode_number := 0, link_count := 0,
    filename := "", parent_dir_inode := 0, change_type := "block_revocation",
    full_path := "" }

/-- The record pushed for a journal superblock block (v1 or v2). -/
def superblockRecord (sequence : Nat) (checksum : String) : JournalTransaction :=
  { relative_time := "T+0", transaction_seq := sequence, block_type := "superblock",
    fs_block_num := 0, operation_type := "journal_superblock", affected_inode := 0,
    file_path := "", data_size := 4096 - 12, checksum := checksum,
    file_type := "superblock", file_size := 0, inode_number := 0, link_count := 0,
    filename := "", parent_dir_inode := 0, change_type := "journal_init",
    full_path := "/" }

/-- The default-initialized data record built inside the commit case before
the block is read and classified; relative_time copies the commit record. -/
def dataRecordBase (sequence : Nat) (fs_block : Nat) : JournalTransaction :=
  { relative_time := "T+0", transaction_seq := sequence, block_type := "data",
    fs_block_num := fs_block, operation_type := "", affected_inode := 0,
    file_path := "", data_size := 4096, checksum := "",
    file_type := "unknown", file_size := 0, inode_number := 0, link_count := 0,
    filename := "", parent_dir_inode := 0, change_type := "unknown",
    full_path := "" }

/-- JournalParser::parseCommitBlock: succeeds when at least four body bytes
exist, returning the little-endian u32 there (the value is never used). -/
def parseCommitBlock : List Nat → Option Nat
  | b0 :: b1 :: b2 :: b3 :: _ => some (u32le b0 b1 b2 b3)
  | _ => none

/-- Ghost trace of the scan, recording where descriptor batches were opened
and, for every processed commit, the tag count of the pending batch and the
journal addresses from which the data blocks were read. -/
inductive ScanEvent where
  | descriptorAt (offset : Int) (numTags : Nat)
  | commitAt (offset : Int) (numTags : Nat) (dataAddrs : List Int)
deriving DecidableEq

/-- Mutable state of the scan loop. -/
structure ScanState (σ : Type) where
  transactions : List JournalTransaction
  current_descriptors : List DescriptorEntry
  classifier : σ
  trace : List ScanEvent

/-- Type of the abstracted data-block classifier (see the section comment). -/
def Analyzer (σ : Type) : Type :=
  σ → DescriptorEntry → List Nat → JournalTransaction → JournalTransaction × List JournalTransaction × σ

/-- Processing of a single journal block at the given offset: read, frame,
filter by sequence, and dispatch on the block type. The Bool result is the
halt flag raised by the end_seq filter (the break of the source loop). -/
def scanStep {σ : Type} (partition_offset : Int) (backend : Int → Nat → Option (List Nat))
    (journal_offset journal_size start_seq end_seq : Int) (analyze : Analyzer σ)
    (offset : Int) (st : ScanState σ) : ScanState σ × Bool :=
  match readBytes partition_offset backend offset 4096 with
  | none => (st, false)
  | some block_buffer =>
    match parseJournalHeader block_buffer with
    | none => (st, false)
    | some header =>
      if start_seq ≥ 0 ∧ toInt32 header.sequence < start_seq then (st, false)
      else if end_seq ≥ 0 ∧ end_seq < toInt32 header.sequence then (st, true)
      else if header.block_type = 1 then
        let current_descriptors := parseDescriptorBlock (block_buffer.drop 12)
        ({ st with
            transactions := st.transactions ++
              [descriptorRecord header.sequence current_descriptors.length
                (calculateChecksum block_buffer)],
            current_descriptors := current_descriptors,
            trace := st.trace ++ [ScanEvent.descriptorAt offset current_descriptors.length] },
          false)
      else if header.block_type = 2 then
        match parseCommitBlock (block_buffer.drop 12) with
        | none => (st, false)
        | some _ =>
          let trans := commitRecord header.sequence (calculateChecksum block_buffer)
          let n := st.current_descriptors.length
          let descriptor_offset := offset - 4096 * (1 + (n : Int))
          let walk := fun (acc : List JournalTransaction × σ) (di : DescriptorEntry × Nat) =>
            let data_block_offset := descriptor_offset + 4096 * (1 + (di.2 : Int))
            let readRes :=
              if data_block_offset < journal_offset + journal_size then
                readBytes partition_offset backend data_block_offset 4096
              else none
            match readRes with
            | some data_block_buffer =>
              let dt0 := { dataRecordBase header.sequence di.1.fs_block_num with
                            checksum := calculateChecksum data_block_buffer }
              let r := analyze acc.2 di.1 data_block_buffer dt0
              (acc.1 ++ r.2.1 ++ [r.1], r.2.2)
            | none =>
              (acc.1 ++ [{ dataRecordBase header.sequence di.1.fs_block_num with
                            operation_type := "filesystem_update", checksum := "" }], acc.2)
          let res := (st.current_descriptors.zip (List.range n)).foldl walk ([], st.classifier)
          let addrs := (List.range n).map fun i => descriptor_offset + 4096 * (1 + (i : Int))
          ({ transactions := st.transactions ++ [trans] ++ res.1,
             current_descriptors := [],
             classifier := res.2,
             trace := st.trace ++ [ScanEvent.commitAt offset n addrs] },
            false)
      else if header.block_type = 5 then
        ({ st with transactions := st.transactions ++
            [revocationRecord header.sequence (calculateChecksum block_buffer)] }, false)
      else if header.block_type = 3 ∨ header.block_type = 4 then
        ({ st with transactions := st.transactions ++
            [superblockRecord header.sequence (calculateChecksum block_buffer)] }, false)
      else (st, false)

/-- The scan loop: iterate 4096-byte steps while the offset lies inside the
journal range; fuel counts the remaining loop iterations and is chosen by
the caller to cover the whole range. -/
def scanLoop {σ : Type} (partition_offset : Int) (backend : Int → Nat → Option (List Nat))
    (journal_offset journal_size start_seq end_seq : Int) (analyze : Analyzer σ) :
    Nat → Int → ScanState σ → ScanState σ
  | 0, _, st => st
  | fuel + 1, offset, st =>
    if offset < journal_offset + journal_size then
      let r := scanStep partition_offset backend journal_offset journal_size start_seq end_seq
        analyze offset st
      if r.2 then r.1
      else scanLoop partition_offset backend journal_offset journal_size start_seq end_seq
        analyze fuel (offset + 4096) r.1
    else st

/-- The relative-time post-pass of JournalParser::parseJournal: when records
were emitted, the base sequence is the sequence of the first record, and
every record receives generateRelativeTimestamp of its own sequence. -/
def updateRelativeTimes (transactions : List JournalTransaction) : List JournalTransaction :=
  match transactions with
  | [] => []
  | t0 :: _ =>
    transactions.map fun t =>
      { t with relative_time := generateRelativeTimestamp t.transaction_seq t0.transaction_seq }

/-- The block-scan portion of JournalParser::parseJournal with the journal
offset and size already resolved, returning the emitted records after the
relative-time post-pass, together with the ghost trace. -/
def parseJournal {σ : Type} (partition_offset : Int) (backend : Int → Nat → Option (List Nat))
    (journal_offset journal_size start_seq end_seq : Int) (analyze : Analyzer σ) (s0 : σ) :
    List JournalTransaction × List ScanEvent :=
  let fuel := ((journal_size + 4095) / 4096).toNat
  let st := scanLoop partition_offset backend journal_offset journal_size start_seq end_seq
    analyze fuel journal_offset
    { transactions := [], current_descriptors := [], classifier := s0, trace := [] }
  (updateRelativeTimes st.transactions, st.trace)

/-- Classifier instantiation that adds nothing: the data record is returned
as initialized, with no extra records. -/
def trivialAnalyzer : Analyzer Unit := fun s _ _ t => (t, [], s)

/-- Every commit event in a trace carries data addresses computed from the
commit offset: address i = commit_offset - 4096 * (1 + n) + 4096 * (1 + i). -/
def commitAddrsOK (evs : List ScanEvent) : Prop :=
  ∀ C n addrs, ScanEvent.commitAt C n addrs ∈ evs →
    addrs = (List.range n).map fun i => C - 4096 * (1 + (n : Int)) + 4096 * (1 + (i : Int))

/-! ### Concrete journal fixtures for the decoder claims. -/

/-- A 4096-byte journal block: a 12-byte header followed by a body padded
with zeros to 4096 bytes. -/
def mkBlock (magicBytes : List Nat) (block_type sequence : Nat) (body : List Nat) : List Nat :=
  magicBytes ++ be32 block_type ++ be32 sequence ++ body ++
    List.replicate (4096 - 12 - body.length) 0

/-- The on-disk JBD2 magic byte sequence. -/
def jbd2Bytes : List Nat := [0xC0, 0x3B, 0x39, 0x98]

/-- Fixture for C1 (counterexample): descriptor with one tag at journal
offset 0, two skipped filler blocks, and the matching commit at offset
12288; the single data block of the transaction lives at offset 4096. -/
def backendC1 (a : Int) (n : Nat) : Option (List Nat) :=
  if n = 4096 ∧ a = 0 then some (mkBlock jbd2Bytes 1 7 (encodeTag (42, 0)))
  else if n = 4096 ∧ a = 4096 then some (List.replicate 4096 0)
  else if n = 4096 ∧ a = 8192 then some (List.replicate 4096 0)
  else if n = 4096 ∧ a = 12288 then some (mkBlock jbd2Bytes 2 7 [])
  else none

/-- Fixture for the C1 witness: a contiguously framed transaction -
descriptor with one tag at offset 0, its data block at 4096, commit at 8192. -/
def backendC1w (a : Int) (n : Nat) : Option (List Nat) :=
  if n = 4096 ∧ a = 0 then some (mkBlock jbd2Bytes 1 7 (encodeTag (42, 0)))
  else if n = 4096 ∧ a = 4096 then some (List.replicate 4096 0)
  else if n = 4096 ∧ a = 8192 then some (mkBlock jbd2Bytes 2 7 [])
  else none

/-- Fixture for C2: two descriptor blocks with sequences 10 then 5; the
first observed sequence (10) is larger than the minimum (5). -/
def backendC2 (a : Int) (n : Nat) : Option (List Nat) :=
  if n = 4096 ∧ a = 0 then some (mkBlock jbd2Bytes 1 10 [])
  else if n = 4096 ∧ a = 4096 then some (mkBlock jbd2Bytes 1 5 [])
  else none

/-- Fixture for C10: a descriptor block with sequence 0 followed by one with
sequence 9, so the base sequence is 0 and a zero-sequence record exists. -/
def backendC10 (a : Int) (n : Nat) : Option (List Nat) :=
  if n = 4096 ∧ a = 0 then some (mkBlock jbd2Bytes 1 0 [])
  else if n = 4096 ∧ a = 4096 then some (mkBlock jbd2Bytes 1 9 [])
  else none

/-! ## CSV field escaping: CSVExporter::escapeCSVField (src/csv_exporter.cpp) -/

/-- Whether a field must be quoted: it contains a comma, a double quote, a
line feed, or a carriage return. -/
def needsQuoting (cs : List Char) : Bool :=
  cs.any fun c => c == ',' || c == '"' || c == '\n' || c == '\r'

/-- Doubling of every double quote, as performed by the insertion loop of
the source. -/
def doubleQuotes : List Char → List Char
  | [] => []
  | c :: rest => if c = '"' then '"' :: '"' :: doubleQuotes rest else c :: doubleQuotes rest

/-- CSVExporter::escapeCSVField: an empty field stays empty; a field without
special characters is returned unchanged; otherwise interior quotes are
doubled and the field is wrapped in double quotes. -/
def escapeCSVField (field : String) : String :=
  if field.data = [] then ""
  else if needsQuoting field.data then
    String.mk ('"' :: (doubleQuotes field.data ++ ['"']))
  else field

/-- Collapse of doubled double quotes (the inverse of doubleQuotes). -/
def collapseQuotes : List Char → List Char
  | [] => []
  | [c] => [c]
  | c1 :: c2 :: rest =>
    if c1 = '"' ∧ c2 = '"' then '"' :: collapseQuotes rest
    else c1 :: collapseQuotes (c2 :: rest)

/-- Modelled from the spec: the standard CSV unescape described by the claim
(the exporter itself has no inverse in the source) - strip one layer of
surrounding double quotes when present and collapse each doubled interior
double quote. -/
def unescapeCSVField (s : String) : String :=
  match s.data with
  | '"' :: rest =>
    match rest.getLast? with
    | some '"' => String.mk (collapseQuotes rest.dropLast)
    | _ => s
  | _ => s

/-! ## Namespace Builder: DirectoryTreeBuilder (src/journal_parser.cpp) -/

/-- Directory tree node (struct DirectoryNode of the source); the default
constructor zero-initializes every field. -/
structure DirectoryNode where
  inode_number : Nat
  parent_inode : Nat
  name : String
  full_path : String
  is_directory : Bool
  children : List Nat
deriving DecidableEq, Inhabited

/-- Directory entry as consumed by the builder (struct EXT4DirectoryEntry). -/
structure EXT4DirectoryEntry where
  inode : Nat
  rec_len : Nat
  name_len : Nat
  file_type : Nat
  name : String
deriving DecidableEq, Inhabited

/-- Inode data as consumed by DirectoryTreeBuilder::addInodeInfo, which
reads only the mode field of the full EXT4 inode structure. -/
structure EXT4Inode where
  mode : Nat
deriving DecidableEq, Inhabited

/-- Association-list lookup modelling unordered_map::find. -/
def lookupA {κ α : Type} [BEq κ] (l : List (κ × α)) (k : κ) : Option α :=
  match l.find? (fun p => p.1 == k) with
  | some p => some p.2
  | none => none

/-- Association-list insert-or-assign modelling unordered_map::operator[]
followed by assignment: replace the entry with the given key when present,
append the pair otherwise. -/
def insertA {κ α : Type} [BEq κ] : List (κ × α) → κ → α → List (κ × α)
  | [], k, v => [(k, v)]
  | p :: rest, k, v => if p.1 == k then (k, v) :: rest else p :: insertA rest k v

/-- The three maps owned by DirectoryTreeBuilder. -/
structure DirectoryTreeBuilder where
  nodes : List (Nat × DirectoryNode)
  path_cache : List (Nat × String)
  name_to_inode : List (String × Nat)
deriving DecidableEq

/-- The freshly constructed builder: the root node (inode 2, its own parent)
is installed and its path cached. -/
def initBuilder : DirectoryTreeBuilder :=
  { nodes := [(2,
      { inode_number := 2, parent_inode := 2, name := "/", full_path := "/",
        is_directory := true, children := [] })],
    path_cache := [(2, "/")],
    name_to_inode := [] }

/-- DirectoryTreeBuilder::updateNode: operator[] default-constructs a node
when absent (preserving existing children otherwise), overwrites the listed
fields, and records the reverse lookup key parent/name. -/
def updateNode (b : DirectoryTreeBuilder) (inode parent_inode : Nat) (name : String)
    (is_dir : Bool) : DirectoryTreeBuilder :=
  let old := (lookupA b.nodes inode).getD default
  let node :=
    { old with
      inode_number := inode, parent_inode := parent_inode, name := name,
      is_directory := is_dir, full_path := "" }
  { b with
    nodes := insertA b.nodes inode node,
    name_to_inode := insertA b.name_to_inode (toString parent_inode ++ "/" ++ name) inode }

/-- DirectoryTreeBuilder::addDirectoryEntry: skip empty or zero-inode or
dot entries, update the child node, deduplicate the child in the parent
node when the parent exists, and clear the path cache. -/
def addDirectoryEntry (b : DirectoryTreeBuilder) (dir_inode : Nat)
    (entry : EXT4DirectoryEntry) : DirectoryTreeBuilder :=
  if entry.inode = 0 ∨ entry.name = "" then b
  else if entry.name = "." ∨ entry.name = ".." then b
  else
    let is_dir := entry.file_type = 2
    let b1 := updateNode b entry.inode dir_inode entry.name is_dir
    let b2 :=
      match lookupA b1.nodes dir_inode with
      | some parent_node =>
        if parent_node.children.contains entry.inode then b1
        else
          let parent2 := { parent_node with children := parent_node.children ++ [entry.inode] }
          { b1 with nodes := insertA b1.nodes dir_inode parent2 }
      | none => b1
    { b2 with path_cache := [] }

/-- DirectoryTreeBuilder::addInodeInfo: when the node exists, refresh its
directory flag from the inode mode bits. -/
def addInodeInfo (b : DirectoryTreeBuilder) (inode : Nat) (inode_data : EXT4Inode) :
    DirectoryTreeBuilder :=
  match lookupA b.nodes inode with
  | some node =>
    let node2 := { node with is_directory := inode_data.mode &&& 0x4000 = 0x4000 }
    { b with nodes := insertA b.nodes inode node2 }
  | none => b

/-- DirectoryTreeBuilder::buildFullPath. The static visiting set of the
source is threaded explicitly (each frame inserts itself before recursing
and the erase on return restores the caller view, which is exactly what
passing the extended list only to the recursive call models). The path
cache is consulted first and updated on every return. Fuel counts the
remaining recursion depth; the top-level caller supplies one more than the
node count, which the visited-set guard makes sufficient, mirroring the
termination argument of the source. -/
def buildFullPath (fuel : Nat) (nodes : List (Nat × DirectoryNode))
    (path_cache : List (Nat × String)) (visiting : List Nat) (inode : Nat) :
    String × List (Nat × String) :=
  match fuel with
  | 0 => ("", path_cache)
  | fuel + 1 =>
    match lookupA path_cache inode with
    | some cached => (cached, path_cache)
    | none =>
      if inode = 2 then ("/", insertA path_cache 2 "/")
      else if inode = 11 then ("/lost+found", insertA path_cache 11 "/lost+found")
      else
        match lookupA nodes inode with
        | none =>
          let unknown_path := "/unknown_inode_" ++ toString inode
          (unknown_path, insertA path_cache inode unknown_path)
        | some node =>
          if inode ∈ visiting then
            let cycle_path := "/cycle_detected_" ++ toString inode
            (cycle_path, insertA path_cache inode cycle_path)
          else
            let parentRes :=
              if node.parent_inode = inode then ("", path_cache)
              else if node.parent_inode = 2 then ("", path_cache)
              else buildFullPath fuel nodes path_cache (inode :: visiting) node.parent_inode
            let full_path :=
              if parentRes.1 = "" ∨ parentRes.1 = "/" then "/" ++ node.name
              else parentRes.1 ++ "/" ++ node.name
            (full_path, insertA parentRes.2 inode full_path)

/-- One public builder operation, as invoked by the decoder across a run. -/
inductive BuilderOp where
  | addEntry (dir_inode : Nat) (entry : EXT4DirectoryEntry)
  | addInode (inode : Nat) (inode_data : EXT4Inode)
  | buildPath (inode : Nat)
deriving DecidableEq

/-- Application of one operation to the builder state. -/
def applyOp (b : DirectoryTreeBuilder) : BuilderOp → DirectoryTreeBuilder
  | BuilderOp.addEntry dir_inode entry => addDirectoryEntry b dir_inode entry
  | BuilderOp.addInode inode inode_data => addInodeInfo b inode inode_data
  | BuilderOp.buildPath inode =>
    { b with path_cache := (buildFullPath (b.nodes.length + 1) b.nodes b.path_cache [] inode).2 }

/-- A run of builder operations from the freshly constructed builder. -/
def runOps (ops : List BuilderOp) : DirectoryTreeBuilder :=
  ops.foldl applyOp initBuilder

/-- The parent-chain re-entry predicate: from the given inode, following
parent pointers through nodes that are present, distinct from 2 and 11, not
their own parents and not children of the root, the walk reaches an inode
already on the visiting list. This is exactly the situation in which the
recursion guard of buildFullPath fires. -/
inductive ReachesCycle (nodes : List (Nat × DirectoryNode)) : List Nat → Nat → Prop where
  | hit (visiting : List Nat) (i : Nat) (node : DirectoryNode) :
      i ≠ 2 → i ≠ 11 → lookupA nodes i = some node → i ∈ visiting →
      ReachesCycle nodes visiting i
  | step (visiting : List Nat) (i : Nat) (node : DirectoryNode) :
      i ≠ 2 → i ≠ 11 → lookupA nodes i = some node → i ∉ visiting →
      node.parent_inode ≠ i → node.parent_inode ≠ 2 →
      ReachesCycle nodes (i :: visiting) node.parent_inode →
      ReachesCycle nodes visiting i

/-! ### Builder fixtures. -/

/-- The mutual cycle of the spec scenario: add_entry(100, 200, a) then
add_entry(200, 100, b), both directories. -/
def cycleOps : List BuilderOp :=
  [BuilderOp.addEntry 100 { inode := 200, rec_len := 12, name_len := 1, file_type := 2, name := "a" },
   BuilderOp.addEntry 200 { inode := 100, rec_len := 12, name_len := 1, file_type := 2, name := "b" }]

/-- A self-parent entry: add_entry(100, 100, a). -/
def selfLoopOps : List BuilderOp :=
  [BuilderOp.addEntry 100 { inode := 100, rec_len := 12, name_len := 1, file_type := 2, name := "a" }]

/-- The node stored for inode 100 after the cycle operations. -/
def nd100C6 : DirectoryNode :=
  { inode_number := 100, parent_inode := 200, name := "b", full_path := "",
    is_directory := true, children := [] }

/-- The node stored for inode 200 after the cycle operations. -/
def nd200C6 : DirectoryNode :=
  { inode_number := 200, parent_inode := 100, name := "a", full_path := "",
    is_directory := true, children := [100] }

/-- A file entry under the root, for the C5 witness operations. -/
def witnessEntryC5 : EXT4DirectoryEntry :=
  { inode := 12, rec_len := 20, name_len := 10, file_type := 1, name := "readme.txt" }

/-- A mixed operation sequence touching the root as parent but never as
child, used to witness the corrected C5 invariant. -/
def witnessOpsC5 : List BuilderOp :=
  [BuilderOp.addEntry 2 witnessEntryC5,
   BuilderOp.addInode 2 { mode := 0x4000 },
   BuilderOp.addInode 12 { mode := 0x8000 },
   BuilderOp.buildPath 12]

/-! # Helper lemmas -/

theorem checkLength_iff (l : List Nat) (n : Nat) : checkLength l n = true ↔ l.length = n := by
  induction l generalizing n with
  | nil => cases n <;> simp [checkLength]
  | cons a rest ih => cases n <;> simp [checkLength, ih]

theorem headD_mem_of_ne_nil {α : Type} (l : List α) (d : α) (h : l ≠ []) : l.headD d ∈ l := by
  cases l with
  | nil => exact absurd rfl h
  | cons a rest => simp [List.headD]

theorem getD_mem_of_lt {α : Type} (l : List α) (n : Nat) (d : α) (h : n < l.length) :
    l.getD n d ∈ l := by
  induction l generalizing n with
  | nil => simp at h
  | cons a rest ih =>
    cases n with
    | zero => simp [List.getD]
    | succ m =>
      simp only [List.getD_cons_succ]
      exact List.mem_cons_of_mem a (ih m (by simpa using h))

theorem lookupA_insertA_self {κ α : Type} [BEq κ] [LawfulBEq κ] (l : List (κ × α)) (k : κ)
    (v : α) : lookupA (insertA l k v) k = some v := by
  induction l with
  | nil => simp [insertA, lookupA, List.find?]
  | cons p rest ih =>
    by_cases hp : p.1 == k
    · simp [insertA, hp, lookupA, List.find?]
    · simp only [insertA, hp, Bool.false_eq_true, if_false]
      simpa [lookupA, List.find?, hp] using ih

theorem lookupA_insertA_ne {κ α : Type} [BEq κ] [LawfulBEq κ] (l : List (κ × α)) (k k2 : κ)
    (v : α) (h : k2 ≠ k) : lookupA (insertA l k v) k2 = lookupA l k2 := by
  induction l with
  | nil =>
    have hk : (k == k2) = false := by simpa using fun he => h he.symm
    simp [insertA, lookupA, List.find?, hk]
  | cons p rest ih =>
    by_cases hp : p.1 == k
    · have hk : (k == k2) = false := by simpa using fun he => h he.symm
      have hp2 : (p.1 == k2) = false := by
        have : p.1 = k := by simpa using hp
        simpa [this] using fun he => h he.symm
      simp [insertA, hp, lookupA, List.find?, hk, hp2]
    · simp only [insertA, hp, Bool.false_eq_true, if_false]
      by_cases hq : p.1 == k2
      · simp [lookupA, List.find?, hq]
      · simpa [lookupA, List.find?, hq] using ih

theorem mem_keys_of_lookupA {κ α : Type} [BEq κ] [LawfulBEq κ] (l : List (κ × α)) (k : κ)
    (v : α) (h : lookupA l k = some v) : k ∈ l.map Prod.fst := by
  induction l with
  | nil => simp [lookupA, List.find?] at h
  | cons p rest ih =>
    by_cases hp : p.1 == k
    · have : p.1 = k := by simpa using hp
      simp [this]
    · simp only [lookupA, List.find?, hp] at h
      exact List.mem_cons_of_mem _ (ih (by simpa [lookupA] using h))

/-! # Claim C9 -/

/-- Claim C9 (corrected): a read succeeds exactly when the partition-adjusted
offset is non-negative (the source checks addr + partition_offset, not addr
itself), the size is positive and at most 1 MiB, and the backend delivers
exactly the requested bytes at the adjusted offset; short reads fail, and the
partition offset is added before dispatching. -/
theorem C9_readBytes_characterization (partition_offset : Int)
    (backend : Int → Nat → Option (List Nat)) (offset : Int) (size : Nat) (r : List Nat) :
    readBytes partition_offset backend offset size = some r ↔
      (¬ offset + partition_offset < 0 ∧ size ≠ 0 ∧ size ≤ 1024 * 1024 ∧
        backend (offset + partition_offset) size = some r ∧ r.length = size) := by
  simp only [readBytes]
  by_cases hg : offset + partition_offset < 0 ∨ size = 0 ∨ size > 1024 * 1024
  · rw [if_pos hg]
    constructor
    · intro h
      exact Option.noConfusion h
    · rintro ⟨hn, hz, hle, _, _⟩
      exfalso
      rcases hg with hg | hg | hg
      · exact hn hg
      · exact hz hg
      · omega
  · rw [if_neg hg]
    push_neg at hg
    obtain ⟨h1, h2, h3⟩ := hg
    cases hb : backend (offset + partition_offset) size with
    | none =>
      constructor
      · intro h
        exact Option.noConfusion h
      · rintro ⟨_, _, _, hbe, _⟩
        exact Option.noConfusion hbe
    | some bytes =>
      dsimp only
      by_cases hl : checkLength bytes size = true
      · rw [if_pos hl]
        have hlen := (checkLength_iff bytes size).mp hl
        constructor
        · intro h
          have hbr : bytes = r := Option.some.inj h
          subst hbr
          exact ⟨by omega, h2, h3, rfl, hlen⟩
        · rintro ⟨_, _, _, hbe, _⟩
          have hbr : bytes = r := Option.some.inj hbe
          subst hbr
          rfl
      · rw [if_neg hl]
        constructor
        · intro h
          exact Option.noConfusion h
        · rintro ⟨_, _, _, hbe, hrlen⟩
          have hbr : bytes = r := Option.some.inj hbe
          subst hbr
          exact absurd ((checkLength_iff bytes size).mpr hrlen) hl

/-- Claim C9 witness: a concrete in-bounds read through a full backend
succeeds, via the characterization. -/
theorem C9_readBytes_characterization_witness :
    readBytes 0 (fun _ n => some (List.replicate n 0)) 0 12 = some (List.replicate 12 0) :=
  (C9_readBytes_characterization 0 (fun _ n => some (List.replicate n 0)) 0 12
    (List.replicate 12 0)).mpr ⟨by decide, by decide, by decide, rfl, by decide⟩

/-- Claim C9 counterexample: with a partition offset of 4096 and a backend
serving every request in full, a read at the negative address -1024 succeeds,
although the claim demands failure whenever addr < 0. -/
theorem C9_counterexample :
    (-1024 : Int) < 0 ∧
      readBytes 4096 (fun _ n => some (List.replicate n 0)) (-1024) 12 ≠ none := by
  exact ⟨by decide, by decide⟩

/-! # Claim C3 -/

set_option maxHeartbeats 3000000 in
/-- Claim C3 (corrected): on a 12-byte input of big-endian M, T, S the header
parser succeeds iff M is 0xC03B3998 (matching the JBD constant) or 0xC0B33998
(matching the transposed JBD2 constant), and on success the stored magic field
is the byte-swapped M - the raw little-endian read - while block_type and
sequence come out as T and S. -/
theorem C3_header_decode (M T S : Nat) (hM : M < 4294967296) (hT : T < 4294967296)
    (hS : S < 4294967296) :
    parseJournalHeader (be32 M ++ be32 T ++ be32 S) =
      if M = 0xC03B3998 ∨ M = 0xC0B33998 then
        some { magic := bswap32 M, block_type := T, sequence := S }
      else none := by
  have hm : u32at (be32 M ++ be32 T ++ be32 S) 0 = bswap32 M := by
    simp only [be32, List.cons_append, List.nil_append, u32at, u32le,
      List.getD_cons_zero, List.getD_cons_succ, bswap32]
    ring
  have ht : u32beAt (be32 M ++ be32 T ++ be32 S) 4 = T := by
    simp only [be32, List.cons_append, List.nil_append, u32beAt, u32be,
      List.getD_cons_zero, List.getD_cons_succ]
    omega
  have hs : u32beAt (be32 M ++ be32 T ++ be32 S) 8 = S := by
    simp only [be32, List.cons_append, List.nil_append, u32beAt, u32be,
      List.getD_cons_zero, List.getD_cons_succ]
    omega
  have hA : bswap32 M = JBD2_MAGIC ↔ M = 0xC0B33998 := by
    unfold bswap32 JBD2_MAGIC
    omega
  have hB : bswap32 M = JBD_MAGIC ↔ M = 0xC03B3998 := by
    unfold bswap32 JBD_MAGIC
    omega
  simp only [parseJournalHeader]
  rw [hm, ht, hs]
  by_cases hMv : M = 0xC03B3998 ∨ M = 0xC0B33998
  · have hcond : bswap32 M = JBD2_MAGIC ∨ bswap32 M = JBD_MAGIC := by
      rcases hMv with h | h
      · exact Or.inr (hB.mpr h)
      · exact Or.inl (hA.mpr h)
    rw [if_pos hcond, if_pos hMv]
  · have hcond : ¬(bswap32 M = JBD2_MAGIC ∨ bswap32 M = JBD_MAGIC) := by
      rintro (h | h)
      · exact hMv (Or.inr (hA.mp h))
      · exact hMv (Or.inl (hB.mp h))
    rw [if_neg hcond, if_neg hMv]

/-- Claim C3 witness: at M = 0xC0B33998 (not a documented JBD/JBD2 magic),
T = 2, S = 9, the parser succeeds with the byte-swapped magic stored. -/
theorem C3_header_decode_witness :
    parseJournalHeader (be32 0xC0B33998 ++ be32 2 ++ be32 9) =
      some { magic := 0x9839B3C0, block_type := 2, sequence := 9 } := by
  have h := C3_header_decode 0xC0B33998 2 9 (by decide) (by decide) (by decide)
  rw [if_pos (Or.inr rfl)] at h
  have hb : bswap32 0xC0B33998 = 0x9839B3C0 := by decide
  rw [hb] at h
  exact h

/-- Claim C3 counterexample: for M = 0xC03B3998 (the documented magic) the
parse succeeds but the stored magic field is 0x98393BC0, not M; and for
M = 0xC0B33998, which is not a JBD/JBD2 magic value, the parse does not
report failure. -/
theorem C3_counterexample :
    parseJournalHeader (be32 0xC03B3998 ++ be32 1 ++ be32 5) =
        some { magic := 0x98393BC0, block_type := 1, sequence := 5 } ∧
      (0x98393BC0 : Nat) ≠ 0xC03B3998 ∧
      parseJournalHeader (be32 0xC0B33998 ++ be32 1 ++ be32 5) ≠ none ∧
      (0xC0B33998 : Nat) ≠ 0xC03B3998 := by
  refine ⟨by decide, by decide, by decide, by decide⟩

/-! # Claim C7 -/

/-- Claim C7 (confirmed): on a body that encodes a sequence of 8-byte tags
big-endian, the descriptor parser stops at the first all-zero tag, examining
nothing beyond it, and returns exactly the preceding tags with
0 < fs_block_num < 0x7FFFFFFF and flags <= 0xFF, in input order. -/
theorem C7_descriptor_tags (ts : List (Nat × Nat))
    (h : ∀ t ∈ ts, t.1 < 4294967296 ∧ t.2 < 4294967296) :
    parseDescriptorBlock (List.flatten (ts.map encodeTag)) =
      ((ts.takeWhile fun t => decide (¬(t.1 = 0 ∧ t.2 = 0))).filter fun t =>
          decide (0 < t.1 ∧ t.1 < 0x7FFFFFFF ∧ t.2 ≤ 0xFF)).map
        fun t => { fs_block_num := t.1, flags := t.2 } := by
  induction ts with
  | nil => rfl
  | cons t rest ih =>
    obtain ⟨h1, h2⟩ := h t (List.mem_cons_self t rest)
    have ih2 := ih fun x hx => h x (List.mem_cons_of_mem t hx)
    have e1 : u32be (t.1 / 16777216 % 256) (t.1 / 65536 % 256) (t.1 / 256 % 256) (t.1 % 256) =
        t.1 := by unfold u32be; omega
    have e2 : u32be (t.2 / 16777216 % 256) (t.2 / 65536 % 256) (t.2 / 256 % 256) (t.2 % 256) =
        t.2 := by unfold u32be; omega
    simp only [List.map_cons, List.flatten_cons, encodeTag, be32, List.cons_append,
      List.nil_append, parseDescriptorBlock, e1, e2]
    by_cases hz : t.1 = 0 ∧ t.2 = 0
    · have hnv : ¬(0 < t.1 ∧ t.1 < 0x7FFFFFFF ∧ t.2 ≤ 0xFF) := by omega
      simp [hz.1, hz.2, List.takeWhile_cons]
    · have hzd : ¬t.1 = 0 ∨ ¬t.2 = 0 := by tauto
      by_cases hv : 0 < t.1 ∧ t.1 < 0x7FFFFFFF ∧ t.2 ≤ 0xFF
      · simp [hz, hzd, hv, List.takeWhile_cons, List.filter_cons, ih2]
      · simp [hz, hzd, hv, List.takeWhile_cons, List.filter_cons, ih2]

/-- Claim C7 witness: the tag list (42,1), (0,0), (7,5) parses to the single
entry (42,1): the zero tag terminates the list before (7,5) is examined. -/
theorem C7_descriptor_tags_witness :
    parseDescriptorBlock (List.flatten (([(42, 1), (0, 0), (7, 5)] : List (Nat × Nat)).map
        encodeTag)) =
      ((([(42, 1), (0, 0), (7, 5)] : List (Nat × Nat)).takeWhile fun t =>
          decide (¬(t.1 = 0 ∧ t.2 = 0))).filter fun t =>
          decide (0 < t.1 ∧ t.1 < 0x7FFFFFFF ∧ t.2 ≤ 0xFF)).map
        fun t => { fs_block_num := t.1, flags := t.2 } :=
  C7_descriptor_tags [(42, 1), (0, 0), (7, 5)] (by decide)

/-! # Claim C8 -/

theorem collapseQuotes_doubleQuotes (cs : List Char) :
    collapseQuotes (doubleQuotes cs) = cs := by
  induction cs with
  | nil => rfl
  | cons c rest ih =>
    by_cases hc : c = '"'
    · subst hc
      cases hr : doubleQuotes rest with
      | nil => simpa [doubleQuotes, collapseQuotes, hr] using ih
      | cons d ds => simpa [doubleQuotes, collapseQuotes, hr] using ih
    · cases hr : doubleQuotes rest with
      | nil =>
        have : rest = [] := by
          cases rest with
          | nil => rfl
          | cons d ds =>
            by_cases hd : d = '"' <;> simp [doubleQuotes, hd] at hr
        simp [doubleQuotes, hr, collapseQuotes, hc, this]
      | cons d ds => simpa [doubleQuotes, hr, collapseQuotes, hc] using ih

/-- Claim C8 (confirmed): unescaping the escape of any field yields the field
back, and the escape function is injective; the escape quotes exactly the
fields containing a comma, double quote, CR, or LF, doubling interior quotes. -/
theorem C8_escape_roundtrip :
    (∀ s : String, unescapeCSVField (escapeCSVField s) = s) ∧
      Function.Injective escapeCSVField := by
  have main : ∀ s : String, unescapeCSVField (escapeCSVField s) = s := by
    intro s
    rcases s with ⟨cs⟩
    by_cases hnil : cs = []
    · subst hnil; rfl
    · by_cases hq : needsQuoting cs
      · have hdata : (escapeCSVField ⟨cs⟩).data = '"' :: (doubleQuotes cs ++ ['"']) := by
          simp [escapeCSVField, hnil, hq]
        unfold unescapeCSVField
        rw [hdata]
        simp [List.getLast?_concat, List.dropLast_concat, collapseQuotes_doubleQuotes]
      · have hesc : escapeCSVField ⟨cs⟩ = ⟨cs⟩ := by
          simp [escapeCSVField, hnil, hq]
        rw [hesc]
        unfold unescapeCSVField
        cases cs with
        | nil => exact absurd rfl hnil
        | cons c rest =>
          have hc : c ≠ '"' := by
            intro hce
            subst hce
            simp [needsQuoting] at hq
          simp only []
          cases hcm : c == '"' with
          | true => exact absurd (by simpa using hcm) hc
          | false =>
            have : ¬ c = '"' := hc
            split
            · next heq =>
              have : c = '"' := by
                have := congrArg (fun l => l.headD ' ') heq
                simpa using this
              exact absurd this hc
            · rfl
  refine ⟨main, fun a b hab => ?_⟩
  rw [← main a, ← main b, hab]

/-! # Claims C2 and C10: the relative-time post-pass -/

theorem mem_updateRelativeTimes (l : List JournalTransaction) (r : JournalTransaction)
    (hr : r ∈ updateRelativeTimes l) :
    ∃ x ∈ l, r = { x with relative_time :=
      generateRelativeTimestamp x.transaction_seq ((l.headD default).transaction_seq) } := by
  cases l with
  | nil => simp [updateRelativeTimes] at hr
  | cons t0 rest =>
    simp only [updateRelativeTimes, List.mem_map] at hr
    obtain ⟨x, hx, hxr⟩ := hr
    exact ⟨x, hx, hxr.symm⟩

theorem headD_updateRelativeTimes (l : List JournalTransaction) :
    ((updateRelativeTimes l).headD default).transaction_seq = (l.headD default).transaction_seq := by
  cases l with
  | nil => rfl
  | cons t0 rest => rfl

/-- Claim C2 (corrected): after a scan, every emitted record carries
relative_time = generateRelativeTimestamp(sequence, base) where base is the
sequence of the FIRST emitted record (not the minimum observed); the
rendering is T+d for non-negative signed difference d, T-d otherwise, and
sequence 0 always yields T+0. -/
theorem C2_relative_time {σ : Type} (partition_offset : Int)
    (backend : Int → Nat → Option (List Nat)) (journal_offset journal_size start_seq end_seq : Int)
    (analyze : Analyzer σ) (s0 : σ) (r : JournalTransaction)
    (hr : r ∈ (parseJournal partition_offset backend journal_offset journal_size start_seq
      end_seq analyze s0).1) :
    r.relative_time = generateRelativeTimestamp r.transaction_seq
      (((parseJournal partition_offset backend journal_offset journal_size start_seq
        end_seq analyze s0).1.headD default).transaction_seq) := by
  simp only [parseJournal] at hr ⊢
  rw [headD_updateRelativeTimes]
  obtain ⟨x, _, rfl⟩ := mem_updateRelativeTimes _ r hr
  rfl

/-- Claim C2 counterexample: scanning a journal whose blocks carry sequences
10 then 5 emits records with relative times T+0 and T-5; the smallest
sequence observed is 5, so the claim demands T+5 and T+0 instead. -/
theorem C2_counterexample :
    ((parseJournal 0 backendC2 0 8192 (-1) (-1) trivialAnalyzer ()).1.map
        fun t => t.transaction_seq) = [10, 5] ∧
      ((parseJournal 0 backendC2 0 8192 (-1) (-1) trivialAnalyzer ()).1.map
        fun t => t.relative_time) = ["T+0", "T-5"] ∧
      ("T-5" : String) ≠ "T+0" ∧ ("T+0" : String) ≠ "T+5" := by
  refine ⟨by decide, by decide, by decide, by decide⟩

/-- Claim C2 witness: the second record of the C2 fixture run satisfies the
corrected relative-time equation. -/
theorem C2_relative_time_witness :
    ((parseJournal 0 backendC2 0 8192 (-1) (-1) trivialAnalyzer ()).1.getD 1
        default).relative_time =
      generateRelativeTimestamp
        ((parseJournal 0 backendC2 0 8192 (-1) (-1) trivialAnalyzer ()).1.getD 1
          default).transaction_seq
        (((parseJournal 0 backendC2 0 8192 (-1) (-1) trivialAnalyzer ()).1.headD
          default).transaction_seq) := by
  apply C2_relative_time
  apply getD_mem_of_lt
  decide

/-- Claim C10 (confirmed): every emitted record whose transaction sequence is
0 is assigned relative_time T+0, whatever the base sequence of the run is. -/
theorem C10_zero_sequence {σ : Type} (partition_offset : Int)
    (backend : Int → Nat → Option (List Nat)) (journal_offset journal_size start_seq end_seq : Int)
    (analyze : Analyzer σ) (s0 : σ) (r : JournalTransaction)
    (hr : r ∈ (parseJournal partition_offset backend journal_offset journal_size start_seq
      end_seq analyze s0).1)
    (h0 : r.transaction_seq = 0) : r.relative_time = "T+0" := by
  simp only [parseJournal] at hr
  obtain ⟨x, _, rfl⟩ := mem_updateRelativeTimes _ r hr
  have hx0 : x.transaction_seq = 0 := h0
  simp [generateRelativeTimestamp, hx0]

/-- Claim C10 witness: the first record of the C10 fixture run has sequence
0 and relative time T+0 even though a later record has sequence 9. -/
theorem C10_zero_sequence_witness :
    ((parseJournal 0 backendC10 0 8192 (-1) (-1) trivialAnalyzer ()).1.headD
      default).relative_time = "T+0" := by
  apply C10_zero_sequence 0 backendC10 0 8192 (-1) (-1) trivialAnalyzer ()
  · apply headD_mem_of_ne_nil
    decide
  · decide

/-! # Claim C5: the root node invariant of the Namespace Builder -/

theorem applyOp_root_parent (b : DirectoryTreeBuilder) (op : BuilderOp)
    (hop : ∀ dir_inode entry, op = BuilderOp.addEntry dir_inode entry → entry.inode ≠ 2)
    (hb : (lookupA b.nodes 2).map (fun node => node.parent_inode) = some 2) :
    (lookupA (applyOp b op).nodes 2).map (fun node => node.parent_inode) = some 2 := by
  obtain ⟨nd, hnd, hpar⟩ : ∃ nd, lookupA b.nodes 2 = some nd ∧ nd.parent_inode = 2 := by
    cases hl : lookupA b.nodes 2 with
    | none => rw [hl] at hb; exact Option.noConfusion hb
    | some nd => exact ⟨nd, rfl, by rw [hl] at hb; simpa using hb⟩
  cases op with
  | addEntry dir_inode entry =>
    have hne : entry.inode ≠ 2 := hop dir_inode entry rfl
    simp only [applyOp, addDirectoryEntry]
    by_cases hg1 : entry.inode = 0 ∨ entry.name = ""
    · rw [if_pos hg1]; exact hb
    · rw [if_neg hg1]
      by_cases hg2 : entry.name = "." ∨ entry.name = ".."
      · rw [if_pos hg2]; exact hb
      · rw [if_neg hg2]
        have h1 : lookupA (updateNode b entry.inode dir_inode entry.name
            (entry.file_type = 2)).nodes 2 = some nd := by
          simp only [updateNode]
          rw [lookupA_insertA_ne _ _ _ _ (fun he => hne he.symm)]
          exact hnd
        cases hpl : lookupA (updateNode b entry.inode dir_inode entry.name
            (entry.file_type = 2)).nodes dir_inode with
        | none =>
          simp only [hpl]
          rw [h1]
          simpa using hpar
        | some parent_node =>
          simp only [hpl]
          by_cases hcm : parent_node.children.contains entry.inode
          · simp only [hcm, if_true]
            rw [h1]
            simpa using hpar
          · simp only [hcm, Bool.false_eq_true, if_false]
            by_cases hd2 : dir_inode = 2
            · subst hd2
              have hpn : parent_node = nd := by
                rw [h1] at hpl
                exact (Option.some.inj hpl).symm
              rw [lookupA_insertA_self]
              simp [hpn, hpar]
            · rw [lookupA_insertA_ne _ _ _ _ (fun he => hd2 he.symm), h1]
              simpa using hpar
  | addInode inode inode_data =>
    simp only [applyOp, addInodeInfo]
    cases hl : lookupA b.nodes inode with
    | none => exact hb
    | some node =>
      by_cases hi2 : inode = 2
      · subst hi2
        have hn2 : node = nd := by
          rw [hnd] at hl
          exact (Option.some.inj hl).symm
        rw [lookupA_insertA_self]
        simp [hn2, hpar]
      · rw [lookupA_insertA_ne _ _ _ _ (fun he => hi2 he.symm)]
        exact hb
  | buildPath inode =>
    simp only [applyOp]
    exact hb

theorem foldl_root_parent (ops : List BuilderOp) :
    ∀ b : DirectoryTreeBuilder,
      (∀ dir_inode entry, BuilderOp.addEntry dir_inode entry ∈ ops → entry.inode ≠ 2) →
      (lookupA b.nodes 2).map (fun node => node.parent_inode) = some 2 →
      (lookupA (ops.foldl applyOp b).nodes 2).map (fun node => node.parent_inode) = some 2 := by
  induction ops with
  | nil => intro b _ hb; exact hb
  | cons op rest ih =>
    intro b hops hb
    simp only [List.foldl_cons]
    refine ih (applyOp b op) (fun d e he => hops d e (List.mem_cons_of_mem op he)) ?_
    refine applyOp_root_parent b op (fun d e heq => ?_) hb
    exact hops d e (heq ▸ List.mem_cons_self op rest)

/-- Claim C5 (corrected): after any sequence of builder operations from the
fresh builder in which no add_entry names inode 2 as the CHILD, the stored
node for inode 2 keeps parent_inode = 2; an add_entry whose entry inode is 2
overwrites the root parent (see the counterexample). -/
theorem C5_root_invariant (ops : List BuilderOp)
    (h : ∀ dir_inode entry, BuilderOp.addEntry dir_inode entry ∈ ops → entry.inode ≠ 2) :
    (lookupA (runOps ops).nodes 2).map (fun node => node.parent_inode) = some 2 := by
  unfold runOps
  exact foldl_root_parent ops initBuilder h (by decide)

/-- Claim C5 counterexample: the single operation add_entry(dir 5, child
inode 2, name x) leaves the root node with parent_inode = 5. -/
theorem C5_counterexample :
    (lookupA (runOps [BuilderOp.addEntry 5
        { inode := 2, rec_len := 12, name_len := 1, file_type := 2, name := "x" }]).nodes 2).map
      (fun node => node.parent_inode) = some 5 ∧ (5 : Nat) ≠ 2 := by
  exact ⟨by decide, by decide⟩

/-- Claim C5 witness: after the mixed witness operations the root node still
has parent_inode = 2. -/
theorem C5_root_invariant_witness :
    (lookupA (runOps witnessOpsC5).nodes 2).map (fun node => node.parent_inode) = some 2 := by
  apply C5_root_invariant
  intro dir_inode entry hmem
  simp only [witnessOpsC5, List.mem_cons, List.not_mem_nil, or_false] at hmem
  rcases hmem with h | h | h | h
  · have he : entry = witnessEntryC5 := by
      injection h with h1 h2
    rw [he]
    decide
  · exact absurd h (by simp)
  · exact absurd h (by simp)
  · exact absurd h (by simp)

/-! # Claim C4: block-size validation during auto-discovery -/

/-- Claim C4 (corrected): a successful auto-discovery implies only that the
superblock was read, its EXT magic matched, and a journal feature bit was
set; the computed block_size = 1024 << log_block_size is never range-checked
(the counterexample succeeds with block_size 131072). -/
theorem C4_no_block_size_validation (partition_offset : Int)
    (backend : Int → Nat → Option (List Nat))
    (h : (findJournalInSuperblock partition_offset backend).found = true) :
    ∃ sblock, readBytes partition_offset backend 1024 1024 = some sblock ∧
      u16at sblock 56 = 0xEF53 ∧
      (u32at sblock 92 &&& 0x0004 ≠ 0 ∨ u32at sblock 96 &&& 0x0008 ≠ 0) := by
  unfold findJournalInSuperblock at h
  cases hsb : readBytes partition_offset backend 1024 1024 with
  | none => rw [hsb] at h; simp at h
  | some sblock =>
    rw [hsb] at h
    dsimp only at h
    by_cases hmagic : u16at sblock 56 ≠ 0xEF53
    · rw [if_pos hmagic] at h
      simp at h
    · rw [if_neg hmagic] at h
      by_cases hfeat : u32at sblock 92 &&& 0x0004 = 0 ∧ u32at sblock 96 &&& 0x0008 = 0
      · rw [if_pos hfeat] at h
        simp at h
      · refine ⟨sblock, rfl, by omega, ?_⟩
        by_cases hc : u32at sblock 92 &&& 0x0004 = 0
        · refine Or.inr fun hd => hfeat ⟨hc, hd⟩
        · exact Or.inl hc

/-- Claim C4 counterexample: on the C4 fixture image the locator succeeds
although block_size = 1024 << 7 = 131072 lies outside the permitted set
1024..65536, which the claim says must make discovery fail. -/
theorem C4_counterexample :
    (findJournalInSuperblock 0 backendC4).found = true ∧
      ext_block_size sbC4 = 131072 ∧
      ¬ (131072 ∈ ([1024, 2048, 4096, 8192, 16384, 32768, 65536] : List Nat)) := by
  refine ⟨by decide, by decide, by decide⟩

/-- Claim C4 witness: applying the corrected statement to the fixture run
yields the superblock together with its passed magic and feature checks. -/
theorem C4_no_block_size_validation_witness :
    ∃ sblock, readBytes 0 backendC4 1024 1024 = some sblock ∧
      u16at sblock 56 = 0xEF53 ∧
      (u32at sblock 92 &&& 0x0004 ≠ 0 ∨ u32at sblock 96 &&& 0x0008 ≠ 0) :=
  C4_no_block_size_validation 0 backendC4 (by decide)

/-! # Claim C1: data-block addressing of committed transactions -/

theorem commitAddrsOK_nil : commitAddrsOK [] := by
  intro C n addrs hmem
  exact absurd hmem (List.not_mem_nil _)

theorem commitAddrsOK_append_desc (evs : List ScanEvent) (o : Int) (k : Nat)
    (h : commitAddrsOK evs) : commitAddrsOK (evs ++ [ScanEvent.descriptorAt o k]) := by
  intro C n addrs hmem
  rcases List.mem_append.mp hmem with hm | hm
  · exact h C n addrs hm
  · simp at hm

theorem commitAddrsOK_append_commit (evs : List ScanEvent) (C0 : Int) (n0 : Nat)
    (h : commitAddrsOK evs) :
    commitAddrsOK (evs ++ [ScanEvent.commitAt C0 n0
      ((List.range n0).map fun i => C0 - 4096 * (1 + (n0 : Int)) + 4096 * (1 + (i : Int)))]) := by
  intro C n addrs hmem
  rcases List.mem_append.mp hmem with hm | hm
  · exact h C n addrs hm
  · simp only [List.mem_singleton, ScanEvent.commitAt.injEq] at hm
    obtain ⟨h1, h2, h3⟩ := hm
    subst h1
    subst h2
    exact h3

theorem scanStep_commitAddrsOK {σ : Type} (partition_offset : Int)
    (backend : Int → Nat → Option (List Nat)) (journal_offset journal_size start_seq end_seq : Int)
    (analyze : Analyzer σ) (offset : Int) (st : ScanState σ) (h : commitAddrsOK st.trace) :
    commitAddrsOK ((scanStep partition_offset backend journal_offset journal_size start_seq
      end_seq analyze offset st).1.trace) := by
  unfold scanStep
  cases readBytes partition_offset backend offset 4096 with
  | none => exact h
  | some block_buffer =>
    dsimp only
    cases parseJournalHeader block_buffer with
    | none => exact h
    | some header =>
      dsimp only
      by_cases h1 : start_seq ≥ 0 ∧ toInt32 header.sequence < start_seq
      · rw [if_pos h1]; exact h
      · rw [if_neg h1]
        by_cases h2 : end_seq ≥ 0 ∧ end_seq < toInt32 header.sequence
        · rw [if_pos h2]; exact h
        · rw [if_neg h2]
          by_cases h3 : header.block_type = 1
          · rw [if_pos h3]
            exact commitAddrsOK_append_desc _ _ _ h
          · rw [if_neg h3]
            by_cases h4 : header.block_type = 2
            · rw [if_pos h4]
              cases parseCommitBlock (block_buffer.drop 12) with
              | none => exact h
              | some commit_seq =>
                dsimp only
                exact commitAddrsOK_append_commit _ _ _ h
            · rw [if_neg h4]
              by_cases h5 : header.block_type = 5
              · rw [if_pos h5]; exact h
              · rw [if_neg h5]
                by_cases h6 : header.block_type = 3 ∨ header.block_type = 4
                · rw [if_pos h6]; exact h
                · rw [if_neg h6]; exact h

theorem scanLoop_commitAddrsOK {σ : Type} (partition_offset : Int)
    (backend : Int → Nat → Option (List Nat)) (journal_offset journal_size start_seq end_seq : Int)
    (analyze : Analyzer σ) :
    ∀ (fuel : Nat) (offset : Int) (st : ScanState σ), commitAddrsOK st.trace →
      commitAddrsOK ((scanLoop partition_offset backend journal_offset journal_size start_seq
        end_seq analyze fuel offset st).trace) := by
  intro fuel
  induction fuel with
  | zero => intro offset st h; exact h
  | succ fuel ih =>
    intro offset st h
    simp only [scanLoop]
    by_cases hb : offset < journal_offset + journal_size
    · rw [if_pos hb]
      have hstep := scanStep_commitAddrsOK partition_offset backend journal_offset journal_size
        start_seq end_seq analyze offset st h
      cases hhalt : (scanStep partition_offset backend journal_offset journal_size start_seq
          end_seq analyze offset st).2 with
      | true => simpa [hhalt] using hstep
      | false =>
        simp only [hhalt, Bool.false_eq_true, if_false]
        exact ih _ _ hstep
    · rw [if_neg hb]; exact h

/-- Claim C1 (corrected): for every commit the scan processes with n pending
descriptor tags, the i-th data block is read from
commit_offset - 4096 * (1 + n) + 4096 * (1 + i): the base is a descriptor
offset RECOMPUTED from the commit-block address. This equals the true
descriptor offset, giving descriptor_offset + (1 + i) * 4096, exactly when
the commit block sits 1 + n blocks after its descriptor block; with skipped
or unlisted blocks in between, the addresses are wrong (see the
counterexample). -/
theorem C1_data_block_addresses {σ : Type} (partition_offset : Int)
    (backend : Int → Nat → Option (List Nat)) (journal_offset journal_size start_seq end_seq : Int)
    (analyze : Analyzer σ) (s0 : σ) (C : Int) (n : Nat) (addrs : List Int)
    (h : ScanEvent.commitAt C n addrs ∈ (parseJournal partition_offset backend journal_offset
      journal_size start_seq end_seq analyze s0).2) :
    addrs = ((List.range n).map fun i => C - 4096 * (1 + (n : Int)) + 4096 * (1 + (i : Int))) ∧
      ∀ D : Int, C = D + 4096 * (1 + (n : Int)) →
        addrs = ((List.range n).map fun i => D + 4096 * (1 + (i : Int))) := by
  have hok : commitAddrsOK (parseJournal partition_offset backend journal_offset journal_size
      start_seq end_seq analyze s0).2 := by
    simp only [parseJournal]
    exact scanLoop_commitAddrsOK partition_offset backend journal_offset journal_size
      start_seq end_seq analyze _ _ _ commitAddrsOK_nil
  have h1 := hok C n addrs h
  refine ⟨h1, fun D hD => ?_⟩
  rw [h1]
  refine List.map_congr_left fun i _ => ?_
  omega

/-- Claim C1 counterexample: the fixture journal holds the descriptor of the
committed sequence-7 transaction at journal offset 0 with one tag, but its
commit block sits at 12288 after two skipped filler blocks, so the single
data block is read from 8192 instead of descriptor_offset + (1+0)*4096 =
4096. -/
theorem C1_counterexample :
    (parseJournal 0 backendC1 0 16384 (-1) (-1) trivialAnalyzer ()).2 =
        [ScanEvent.descriptorAt 0 1, ScanEvent.commitAt 12288 1 [8192]] ∧
      (8192 : Int) ≠ 0 + 4096 * (1 + (0 : Int)) := by
  refine ⟨by decide, by decide⟩

/-- Claim C1 witness: in the contiguously framed fixture the descriptor sits
at offset 0, the commit at 8192 = 0 + 4096 * (1 + 1), and the corrected
theorem yields the data address 4096 = descriptor_offset + (1+0)*4096. -/
theorem C1_data_block_addresses_witness :
    ScanEvent.commitAt 8192 1 [4096] ∈
        (parseJournal 0 backendC1w 0 12288 (-1) (-1) trivialAnalyzer ()).2 ∧
      ([4096] : List Int) = ((List.range 1).map fun i => (0 : Int) + 4096 * (1 + (i : Int))) := by
  have hmem : ScanEvent.commitAt 8192 1 [4096] ∈
      (parseJournal 0 backendC1w 0 12288 (-1) (-1) trivialAnalyzer ()).2 := by decide
  refine ⟨hmem, ?_⟩
  exact (C1_data_block_addresses 0 backendC1w 0 12288 (-1) (-1) trivialAnalyzer () 8192 1 [4096]
    hmem).2 0 (by decide)

/-! # Claim C6: cycle handling in buildFullPath -/

theorem length_filter_le_of_imp {p q : Nat → Bool} (l : List Nat)
    (h : ∀ a, p a = true → q a = true) : (l.filter p).length ≤ (l.filter q).length := by
  induction l with
  | nil => simp
  | cons a rest ih =>
    by_cases hp : p a = true
    · rw [List.filter_cons_of_pos hp, List.filter_cons_of_pos (h a hp)]
      simpa using ih
    · rw [List.filter_cons_of_neg (by simpa using hp)]
      by_cases hq : q a = true
      · rw [List.filter_cons_of_pos hq]
        exact Nat.le_succ_of_le ih
      · rw [List.filter_cons_of_neg (by simpa using hq)]
        exact ih

theorem measure_cons_lt (keys visiting : List Nat) (i : Nat) (hk : i ∈ keys)
    (hv : i ∉ visiting) :
    (keys.filter fun k => decide (k ∉ i :: visiting)).length <
      (keys.filter fun k => decide (k ∉ visiting)).length := by
  induction keys with
  | nil => simp at hk
  | cons a rest ih =>
    by_cases ha : a = i
    · subst ha
      rw [List.filter_cons_of_neg (by simp), List.filter_cons_of_pos (by simpa using hv)]
      have hmono := length_filter_le_of_imp (p := fun k => decide (k ∉ a :: visiting))
        (q := fun k => decide (k ∉ visiting)) rest
        (fun x hx => by
          simp only [decide_eq_true_eq] at hx ⊢
          exact fun hmem => hx (List.mem_cons_of_mem a hmem))
      simp only [List.length_cons]
      omega
    · have hk2 : i ∈ rest := by
        rcases List.mem_cons.mp hk with he | hm
        · exact absurd he.symm ha
        · exact hm
      by_cases hav : a ∈ visiting
      · rw [List.filter_cons_of_neg (by simp [hav]),
          List.filter_cons_of_neg (by simp [hav])]
        exact ih hk2
      · rw [List.filter_cons_of_pos (by simp [hav, ha]),
          List.filter_cons_of_pos (by simpa using hav)]
        exact Nat.succ_lt_succ (ih hk2)

set_option maxHeartbeats 1000000 in
/-- Claim C6 (corrected): whenever the parent-pointer walk from an inode
re-enters a visited inode through nodes that are present, distinct from 2
and 11, not their own parents and not children of the root, buildFullPath
with an empty path cache terminates (it is total by construction, for any
fuel exceeding the remaining-node measure, as in the real call) and returns
a string containing cycle_detected. Self-parent loops and cycles passing
through inodes 2 or 11 escape detection (see the counterexample). -/
theorem C6_cycle_detection (nodes : List (Nat × DirectoryNode)) (visiting : List Nat)
    (i : Nat) (h : ReachesCycle nodes visiting i) :
    ∀ fuel : Nat,
      ((nodes.map Prod.fst).filter fun k => decide (k ∉ visiting)).length < fuel →
      ∃ s1 s2, (buildFullPath fuel nodes [] visiting i).1 = s1 ++ "cycle_detected" ++ s2 := by
  induction h with
  | hit visiting i node h2 h11 hlook hmem =>
    intro fuel hf
    cases fuel with
    | zero => exact absurd hf (Nat.not_lt_zero _)
    | succ fuel =>
      simp only [buildFullPath]
      rw [show lookupA ([] : List (Nat × String)) i = none from rfl]
      dsimp only
      rw [if_neg h2, if_neg h11, hlook]
      dsimp only
      rw [if_pos hmem]
      refine ⟨"/", "_" ++ toString i, ?_⟩
      rw [← String.append_assoc]
      rfl
  | step visiting i node h2 h11 hlook hnv hpne hp2 hrec ih =>
    intro fuel hf
    cases fuel with
    | zero => exact absurd hf (Nat.not_lt_zero _)
    | succ fuel =>
      have hkey : i ∈ nodes.map Prod.fst := mem_keys_of_lookupA nodes i node hlook
      have hlt := measure_cons_lt (nodes.map Prod.fst) visiting i hkey hnv
      have hf2 : ((nodes.map Prod.fst).filter fun k => decide (k ∉ i :: visiting)).length <
          fuel := by omega
      obtain ⟨s1, s2, hps⟩ := ih fuel hf2
      have h14 : ("cycle_detected" : String).length = 14 := rfl
      have hge : 14 ≤
          ((buildFullPath fuel nodes [] (i :: visiting) node.parent_inode).1).length := by
        rw [hps, String.length_append, String.length_append, h14]
        omega
      have hcond : ¬((buildFullPath fuel nodes [] (i :: visiting) node.parent_inode).1 = "" ∨
          (buildFullPath fuel nodes [] (i :: visiting) node.parent_inode).1 = "/") := by
        rintro (hc | hc)
        · rw [hc] at hge
          exact absurd hge (by decide)
        · rw [hc] at hge
          exact absurd hge (by decide)
      simp only [buildFullPath]
      rw [show lookupA ([] : List (Nat × String)) i = none from rfl]
      dsimp only
      rw [if_neg h2, if_neg h11, hlook]
      dsimp only
      rw [if_neg hnv]
      rw [if_neg hpne, if_neg hp2]
      (try dsimp only)
      rw [if_neg hcond]
      refine ⟨s1, s2 ++ ("/" ++ node.name), ?_⟩
      rw [hps]
      simp [String.append_assoc]

/-- Claim C6 counterexample: after add_entry(100, 100, a) the parent chain
from inode 100 is the self-cycle 100 -> 100, yet buildFullPath returns the
plain path /a, which does not contain cycle_detected. -/
theorem C6_counterexample :
    (lookupA (runOps selfLoopOps).nodes 100).map (fun node => node.parent_inode) = some 100 ∧
      (buildFullPath ((runOps selfLoopOps).nodes.length + 1) (runOps selfLoopOps).nodes
        (runOps selfLoopOps).path_cache [] 100).1 = "/a" ∧
      ¬ ∃ s1 s2 : String, ("/a" : String) = s1 ++ "cycle_detected" ++ s2 := by
  refine ⟨by decide, by decide, ?_⟩
  rintro ⟨s1, s2, hc⟩
  have hlen := congrArg String.length hc
  rw [String.length_append, String.length_append] at hlen
  have h14 : ("cycle_detected" : String).length = 14 := rfl
  have h2 : ("/a" : String).length = 2 := rfl
  rw [h14, h2] at hlen
  omega

/-- Claim C6 witness: for the mutual cycle of the spec scenario
(add_entry(100, 200, a); add_entry(200, 100, b)), buildFullPath on inode 100
with the builder state (whose path cache is empty) returns a string
containing cycle_detected. -/
theorem C6_cycle_detection_witness :
    ∃ s1 s2, (buildFullPath ((runOps cycleOps).nodes.length + 1) (runOps cycleOps).nodes
      [] [] 100).1 = s1 ++ "cycle_detected" ++ s2 := by
  refine C6_cycle_detection (runOps cycleOps).nodes [] 100 ?_ _ (by decide)
  refine ReachesCycle.step [] 100 nd100C6 (by decide) (by decide) (by decide) (by decide)
    (by decide) (by decide) ?_
  refine ReachesCycle.step [100] 200 nd200C6 (by decide) (by decide) (by decide) (by decide)
    (by decide) (by decide) ?_
  exact ReachesCycle.hit [200, 100] 100 nd100C6 (by decide) (by decide) (by decide) (by decide)

